import Mathlib

/-!
Shallow embedding of the quota-tracking and admission-control core of
src/server.js (J GIL Image Studio backend).

The JavaScript `Map` named `usageByIp` is modelled as an association list
with `Map.get` / `Map.set` / `Map.clear` semantics; counts are `Nat`
(small non-negative integers incremented by one at a time, so no overflow
is involved); the month key produced by `getMonthKey` is an opaque
`String`, as is the caller identity.  The configuration values
`MAX_IMAGES_PER_MONTH` and the parsed `ADMIN_IPS` list are process-wide
constants in the source (the environment never changes while the process
runs), so they are passed as parameters.
-/

namespace JGil

/-- ALLOW corresponds to the handler proceeding past the quota check
(the HTTP 200/502/500 paths); DENY corresponds to the early 429 return
in src/server.js lines 116-121. -/
inductive Decision
  | allow
  | deny
  deriving DecidableEq

/-- The `usageInfo` object built by the handler.  In JavaScript it is a
plain object whose properties differ between the non-admin branch
(`period`, `limit`, `used`, `remaining`, lines 110-115 and 127-132) and
the admin branch (`period` only, lines 135-137); absent properties are
modelled as `none`. -/
structure UsageInfo where
  period : String
  limit : Option Nat
  used : Option Nat
  remaining : Option Nat
  deriving DecidableEq

/-- The admission outcome of one `/generate` call: the decision together
with the `usageInfo` snapshot embedded in the response. -/
structure AdmissionResult where
  decision : Decision
  usage : UsageInfo
  deriving DecidableEq

/-- `Map.get` of the JavaScript `usageByIp` map: the value stored at a
key, if any. -/
def mapGet : List (String × Nat) → String → Option Nat
  | [], _ => none
  | (k, v) :: rest, key => if k = key then some v else mapGet rest key

/-- `Map.set` of the JavaScript `usageByIp` map: overwrite the value at
an existing key, or append a new entry. -/
def mapSet : List (String × Nat) → String → Nat → List (String × Nat)
  | [], key, value => [(key, value)]
  | (k, v) :: rest, key, value =>
      if k = key then (k, value) :: rest else (k, v) :: mapSet rest key value

/-- The mutable module state of src/server.js: `usageByIp` (line 38) and
`currentMonthKey` (line 39). -/
structure ServerState where
  usageByIp : List (String × Nat)
  currentMonthKey : String
  deriving DecidableEq

/-- `ensureUsageWindow` (src/server.js lines 46-52): if the current month
key differs from the stored one, clear the whole map and store the new
key; `now` is the value `getMonthKey()` returns at this call. -/
def ensureUsageWindow (now : String) (s : ServerState) : ServerState :=
  if now ≠ s.currentMonthKey then ⟨[], now⟩ else s

/-- The admission section of the `/generate` handler (src/server.js lines
86 and 100-138): run `ensureUsageWindow`, test membership in the admin
list, and on the non-admin path read `previous = usageByIp.get(ip) || 0`,
deny without mutation when `previous >= MAX_IMAGES_PER_MONTH`, otherwise
store `previous + 1` and allow.  `now` is the value `getMonthKey()`
returns during this call. -/
def checkAndConsume (maxImages : Nat) (adminIps : List String)
    (clientIp now : String) (s0 : ServerState) : AdmissionResult × ServerState :=
  let s := ensureUsageWindow now s0
  if !(adminIps.contains clientIp) then
    let previous := (mapGet s.usageByIp clientIp).getD 0
    if previous ≥ maxImages then
      (⟨Decision.deny, ⟨"per_ip_month", some maxImages, some previous, some 0⟩⟩, s)
    else
      let used := previous + 1
      let remaining := max (maxImages - used) 0
      (⟨Decision.allow, ⟨"per_ip_month", some maxImages, some used, some remaining⟩⟩,
       ⟨mapSet s.usageByIp clientIp used, s.currentMonthKey⟩)
  else
    (⟨Decision.allow, ⟨"admin_unlimited", none, none, none⟩⟩, s)

/-- The server state after `n` further `/generate` calls by the same
identity within the same month. -/
def callsFrom (maxImages : Nat) (adminIps : List String) (ip now : String) :
    Nat → ServerState → ServerState
  | 0, s => s
  | n + 1, s =>
      (checkAndConsume maxImages adminIps ip now
        (callsFrom maxImages adminIps ip now n s)).2

/-- Outcome of the upstream Hugging Face call in the `/generate` handler:
`ok` (lines 166-173), `httpError` (`!hfResponse.ok`, lines 156-164), or
`thrown` (the catch block, lines 174-180). -/
inductive UpstreamOutcome
  | ok
  | httpError
  | thrown
  deriving DecidableEq

/-- The HTTP response assembled by the post-admission part of the
handler: a status code and the `usage` field embedded in the body (all
four exits at lines 116, 159, 170 and 176 embed `usageInfo`). -/
structure HandlerResponse where
  status : Nat
  usage : UsageInfo
  deriving DecidableEq

/-- The `/generate` handler from admission through the upstream call
(src/server.js lines 85-181): admission runs first, then the upstream
call is made on the ALLOW path; none of the upstream branches touches
`usageByIp`. -/
def handleGenerate (maxImages : Nat) (adminIps : List String)
    (clientIp now : String) (outcome : UpstreamOutcome) (s0 : ServerState) :
    HandlerResponse × ServerState :=
  let r := checkAndConsume maxImages adminIps clientIp now s0
  match r.1.decision with
  | Decision.deny => (⟨429, r.1.usage⟩, r.2)
  | Decision.allow =>
      match outcome with
      | UpstreamOutcome.ok => (⟨200, r.1.usage⟩, r.2)
      | UpstreamOutcome.httpError => (⟨502, r.1.usage⟩, r.2)
      | UpstreamOutcome.thrown => (⟨500, r.1.usage⟩, r.2)

/-- The `x-forwarded-for` header of a request: absent, a string, or an
array of strings. -/
inductive XfHeader
  | missing
  | str (s : String)
  | arr (l : List String)
  deriving DecidableEq

/-- The request fields read by `getClientIp`: the `x-forwarded-for`
header, `req.ip`, and `req.connection.remoteAddress` (with a missing
`req.connection` folded into a missing address). -/
structure Req where
  xForwardedFor : XfHeader
  ip : Option String
  remoteAddress : Option String

/-- JavaScript `a || b` on a possibly-absent string: an absent or empty
(falsy) string falls through to the default. -/
def jsOrStr (o : Option String) (d : String) : String :=
  match o with
  | some s => if s = "" then d else s
  | none => d

/-- `getClientIp` (src/server.js lines 223-236): first component of a
non-empty string `x-forwarded-for`, else first element of a non-empty
array one, else `req.ip || req.connection.remoteAddress || "unknown"`. -/
def getClientIp (r : Req) : String :=
  match r.xForwardedFor with
  | XfHeader.str xf =>
      if xf.length > 0 then ((xf.splitOn ",").headD "").trim
      else jsOrStr r.ip (jsOrStr r.remoteAddress "unknown")
  | XfHeader.arr xs =>
      if xs.length > 0 then (((xs.headD "").splitOn ",").headD "").trim
      else jsOrStr r.ip (jsOrStr r.remoteAddress "unknown")
  | XfHeader.missing => jsOrStr r.ip (jsOrStr r.remoteAddress "unknown")

/-- States reachable while the process runs: the module initializer sets
`usageByIp = new Map()` and `currentMonthKey = getMonthKey()` (lines
38-39), and every `/generate` request steps the state through the
admission section. -/
inductive Reachable (maxImages : Nat) (adminIps : List String) : ServerState → Prop
  | init (m0 : String) : Reachable maxImages adminIps ⟨[], m0⟩
  | step (ip now : String) {s : ServerState} (h : Reachable maxImages adminIps s) :
      Reachable maxImages adminIps (checkAndConsume maxImages adminIps ip now s).2

theorem mapGet_mapSet_self (m : List (String × Nat)) (k : String) (v : Nat) :
    mapGet (mapSet m k v) k = some v := by
  induction m with
  | nil => simp [mapGet, mapSet]
  | cons hd tl ih =>
      obtain ⟨k', v'⟩ := hd
      by_cases h : k' = k
      · simp [mapGet, mapSet, h]
      · simp [mapGet, mapSet, h, ih]

theorem mapGet_mapSet_ne (m : List (String × Nat)) (k k' : String) (v : Nat)
    (h : k' ≠ k) : mapGet (mapSet m k v) k' = mapGet m k' := by
  have hkk : ¬ (k = k') := fun hh => h hh.symm
  induction m with
  | nil => simp [mapGet, mapSet, hkk]
  | cons hd tl ih =>
      obtain ⟨k0, v0⟩ := hd
      by_cases h0 : k0 = k
      · subst h0
        simp [mapGet, mapSet, hkk]
      · simp [mapGet, mapSet, h0, ih]

theorem ensureUsageWindow_same (now : String) (s : ServerState)
    (h : now = s.currentMonthKey) : ensureUsageWindow now s = s := by
  simp [ensureUsageWindow, h]

theorem ensureUsageWindow_diff (now : String) (s : ServerState)
    (h : now ≠ s.currentMonthKey) : ensureUsageWindow now s = ⟨[], now⟩ := by
  simp [ensureUsageWindow, h]

theorem checkAndConsume_admin (maxImages : Nat) (adminIps : List String)
    (ip now : String) (s : ServerState) (h : adminIps.contains ip = true) :
    checkAndConsume maxImages adminIps ip now s =
      (⟨Decision.allow, ⟨"admin_unlimited", none, none, none⟩⟩,
       ensureUsageWindow now s) := by
  have hmem : ip ∈ adminIps := by simpa using h
  simp [checkAndConsume, hmem]

theorem checkAndConsume_deny (maxImages : Nat) (adminIps : List String)
    (ip now : String) (s : ServerState) (h : adminIps.contains ip = false)
    (hge : maxImages ≤ (mapGet (ensureUsageWindow now s).usageByIp ip).getD 0) :
    checkAndConsume maxImages adminIps ip now s =
      (⟨Decision.deny, ⟨"per_ip_month", some maxImages,
          some ((mapGet (ensureUsageWindow now s).usageByIp ip).getD 0), some 0⟩⟩,
       ensureUsageWindow now s) := by
  have hmem : ip ∉ adminIps := by simpa using h
  simp [checkAndConsume, hmem, hge]

theorem checkAndConsume_allow (maxImages : Nat) (adminIps : List String)
    (ip now : String) (s : ServerState) (h : adminIps.contains ip = false)
    (hlt : (mapGet (ensureUsageWindow now s).usageByIp ip).getD 0 < maxImages) :
    checkAndConsume maxImages adminIps ip now s =
      (⟨Decision.allow, ⟨"per_ip_month", some maxImages,
          some ((mapGet (ensureUsageWindow now s).usageByIp ip).getD 0 + 1),
          some (max (maxImages -
            ((mapGet (ensureUsageWindow now s).usageByIp ip).getD 0 + 1)) 0)⟩⟩,
       ⟨mapSet (ensureUsageWindow now s).usageByIp ip
          ((mapGet (ensureUsageWindow now s).usageByIp ip).getD 0 + 1),
        (ensureUsageWindow now s).currentMonthKey⟩) := by
  have hmem : ip ∉ adminIps := by simpa using h
  simp [checkAndConsume, hmem, Nat.not_le.mpr hlt]

theorem mapGet_after_call (maxImages : Nat) (adminIps : List String)
    (ip' now : String) (s' : ServerState) (ip : String) :
    mapGet (checkAndConsume maxImages adminIps ip' now s').2.usageByIp ip =
      mapGet (ensureUsageWindow now s').usageByIp ip ∨
    (ip = ip' ∧ adminIps.contains ip' = false ∧
      (mapGet (ensureUsageWindow now s').usageByIp ip').getD 0 < maxImages ∧
      mapGet (checkAndConsume maxImages adminIps ip' now s').2.usageByIp ip =
        some ((mapGet (ensureUsageWindow now s').usageByIp ip').getD 0 + 1)) := by
  cases hadm : adminIps.contains ip' with
  | true => left; rw [checkAndConsume_admin _ _ _ _ _ hadm]
  | false =>
      by_cases hge : maxImages ≤ (mapGet (ensureUsageWindow now s').usageByIp ip').getD 0
      · left; rw [checkAndConsume_deny _ _ _ _ _ hadm hge]
      · have hlt : (mapGet (ensureUsageWindow now s').usageByIp ip').getD 0 < maxImages :=
          Nat.not_le.mp hge
        by_cases hip : ip = ip'
        · right
          refine ⟨hip, rfl, hlt, ?_⟩
          rw [checkAndConsume_allow _ _ _ _ _ hadm hlt]
          subst hip
          exact mapGet_mapSet_self _ _ _
        · left
          rw [checkAndConsume_allow _ _ _ _ _ hadm hlt]
          exact mapGet_mapSet_ne _ _ _ _ hip

theorem month_after_call (maxImages : Nat) (adminIps : List String)
    (ip' now : String) (s' : ServerState) :
    (checkAndConsume maxImages adminIps ip' now s').2.currentMonthKey =
      (ensureUsageWindow now s').currentMonthKey := by
  cases hadm : adminIps.contains ip' with
  | true => rw [checkAndConsume_admin _ _ _ _ _ hadm]
  | false =>
      by_cases hge : maxImages ≤ (mapGet (ensureUsageWindow now s').usageByIp ip').getD 0
      · rw [checkAndConsume_deny _ _ _ _ _ hadm hge]
      · rw [checkAndConsume_allow _ _ _ _ _ hadm (Nat.not_le.mp hge)]

theorem reachable_count_le (maxImages : Nat) (adminIps : List String)
    {s : ServerState} (h : Reachable maxImages adminIps s) :
    ∀ ip c, mapGet s.usageByIp ip = some c → c ≤ maxImages := by
  induction h with
  | init m0 => intro ip c hc; simp [mapGet] at hc
  | step ip' now hs ih =>
      intro ip c hc
      rename_i s'
      have hwin : ∀ ip0 c0,
          mapGet (ensureUsageWindow now s').usageByIp ip0 = some c0 → c0 ≤ maxImages := by
        intro ip0 c0 h0
        by_cases hm : now = s'.currentMonthKey
        · rw [ensureUsageWindow_same now s' hm] at h0
          exact ih ip0 c0 h0
        · rw [ensureUsageWindow_diff now s' hm] at h0
          simp [mapGet] at h0
      rcases mapGet_after_call maxImages adminIps ip' now s' ip with heq | ⟨_, _, hlt, heq⟩
      · rw [heq] at hc
        exact hwin ip c hc
      · rw [heq] at hc
        injection hc with hc'
        have := Nat.succ_le_of_lt hlt
        omega

theorem reachable_admin_none (maxImages : Nat) (adminIps : List String)
    {s : ServerState} (h : Reachable maxImages adminIps s) :
    ∀ ip, adminIps.contains ip = true → mapGet s.usageByIp ip = none := by
  induction h with
  | init m0 => intro ip _; rfl
  | step ip' now hs ih =>
      intro ip hip
      rename_i s'
      have hwin : mapGet (ensureUsageWindow now s').usageByIp ip = none := by
        by_cases hm : now = s'.currentMonthKey
        · rw [ensureUsageWindow_same now s' hm]
          exact ih ip hip
        · rw [ensureUsageWindow_diff now s' hm]
          rfl
      rcases mapGet_after_call maxImages adminIps ip' now s' ip with heq | ⟨hipeq, hadm, _, _⟩
      · rw [heq]
        exact hwin
      · subst hipeq
        rw [hip] at hadm
        exact absurd hadm (by decide)

theorem callsFrom_count (maxImages : Nat) (adminIps : List String) (ip now : String)
    (s : ServerState) (hadm : adminIps.contains ip = false)
    (hper : now = s.currentMonthKey)
    (h0 : (mapGet s.usageByIp ip).getD 0 = 0) :
    ∀ k, k ≤ maxImages →
      (callsFrom maxImages adminIps ip now k s).currentMonthKey = now ∧
      (mapGet (callsFrom maxImages adminIps ip now k s).usageByIp ip).getD 0 = k := by
  intro k
  induction k with
  | zero =>
      intro _
      exact ⟨hper.symm, by simpa [callsFrom] using h0⟩
  | succ k ih =>
      intro hk
      obtain ⟨hm, hc⟩ := ih (Nat.le_of_succ_le hk)
      have hwin : ensureUsageWindow now (callsFrom maxImages adminIps ip now k s) =
          callsFrom maxImages adminIps ip now k s :=
        ensureUsageWindow_same _ _ hm.symm
      have hlt : (mapGet (ensureUsageWindow now
          (callsFrom maxImages adminIps ip now k s)).usageByIp ip).getD 0 < maxImages := by
        rw [hwin, hc]
        exact Nat.lt_of_succ_le hk
      constructor
      · rw [callsFrom, month_after_call, hwin]
        exact hm
      · rw [callsFrom, checkAndConsume_allow maxImages adminIps ip now _ hadm hlt, hwin, hc]
        simp [mapGet_mapSet_self]

/-- Claim C1: for a non-admin identity starting with no usage in the current
period and a positive limit L, the first L admission calls in the period
return ALLOW with used = i and remaining = L - i for i = 1..L, and the
(L+1)-th call returns DENY with used = L and remaining = 0. -/
theorem quota_allows_first_L_then_denies (L : Nat) (adminIps : List String)
    (ip now : String) (s : ServerState) (hL : 0 < L)
    (hadm : adminIps.contains ip = false) (hper : now = s.currentMonthKey)
    (h0 : (mapGet s.usageByIp ip).getD 0 = 0) :
    (∀ i, i < L →
      (checkAndConsume L adminIps ip now (callsFrom L adminIps ip now i s)).1 =
        ⟨Decision.allow,
         ⟨"per_ip_month", some L, some (i + 1), some (L - (i + 1))⟩⟩) ∧
    (checkAndConsume L adminIps ip now (callsFrom L adminIps ip now L s)).1 =
      ⟨Decision.deny, ⟨"per_ip_month", some L, some L, some 0⟩⟩ := by
  constructor
  · intro i hi
    obtain ⟨hm, hc⟩ := callsFrom_count L adminIps ip now s hadm hper h0 i (Nat.le_of_lt hi)
    have hwin := ensureUsageWindow_same now (callsFrom L adminIps ip now i s) hm.symm
    have hlt : (mapGet (ensureUsageWindow now
        (callsFrom L adminIps ip now i s)).usageByIp ip).getD 0 < L := by
      rw [hwin, hc]
      exact hi
    rw [checkAndConsume_allow L adminIps ip now _ hadm hlt, hwin, hc]
    simp
  · obtain ⟨hm, hc⟩ := callsFrom_count L adminIps ip now s hadm hper h0 L (Nat.le_refl L)
    have hwin := ensureUsageWindow_same now (callsFrom L adminIps ip now L s) hm.symm
    have hge : L ≤ (mapGet (ensureUsageWindow now
        (callsFrom L adminIps ip now L s)).usageByIp ip).getD 0 := by
      rw [hwin, hc]
    rw [checkAndConsume_deny L adminIps ip now _ hadm hge, hwin, hc]

theorem quota_allows_first_L_then_denies_witness :
    (checkAndConsume 2 [] "A" "m" (callsFrom 2 [] "A" "m" 2 ⟨[], "m"⟩)).1 =
      ⟨Decision.deny, ⟨"per_ip_month", some 2, some 2, some 0⟩⟩ :=
  (quota_allows_first_L_then_denies 2 [] "A" "m" ⟨[], "m"⟩ (by decide)
    (by decide) rfl rfl).2

/-- Claim C2: for a non-admin identity whose stored count is at or above the
limit, a call in the stored period returns DENY with used equal to the stored
count and remaining 0, the state is unchanged, and any number of further
calls by that identity in the same period leaves the state unchanged. -/
theorem deny_at_limit_no_mutation (maxImages : Nat) (adminIps : List String)
    (ip now : String) (s : ServerState) (c : Nat)
    (hadm : adminIps.contains ip = false) (hper : now = s.currentMonthKey)
    (hc : mapGet s.usageByIp ip = some c) (hge : maxImages ≤ c) :
    checkAndConsume maxImages adminIps ip now s =
      (⟨Decision.deny, ⟨"per_ip_month", some maxImages, some c, some 0⟩⟩, s) ∧
    ∀ n, callsFrom maxImages adminIps ip now n s = s := by
  have hwin := ensureUsageWindow_same now s hper
  have hge' : maxImages ≤ (mapGet (ensureUsageWindow now s).usageByIp ip).getD 0 := by
    rw [hwin, hc]
    exact hge
  have hmain : checkAndConsume maxImages adminIps ip now s =
      (⟨Decision.deny, ⟨"per_ip_month", some maxImages, some c, some 0⟩⟩, s) := by
    rw [checkAndConsume_deny maxImages adminIps ip now s hadm hge', hwin, hc]
    rfl
  refine ⟨hmain, ?_⟩
  intro n
  induction n with
  | zero => rfl
  | succ n ihn => rw [callsFrom, ihn, hmain]

theorem deny_at_limit_no_mutation_witness :
    checkAndConsume 3 [] "A" "m" ⟨[("A", 3)], "m"⟩ =
      (⟨Decision.deny, ⟨"per_ip_month", some 3, some 3, some 0⟩⟩,
       ⟨[("A", 3)], "m"⟩) :=
  (deny_at_limit_no_mutation 3 [] "A" "m" ⟨[("A", 3)], "m"⟩ 3 (by decide) rfl
    (by decide) (by decide)).1

/-- Claim C3: in every reachable state, a call by an identity on the admin
list returns ALLOW with the admin snapshot regardless of prior calls, no
usage counter exists for that identity, and no call by any identity creates
or mutates a counter for it. -/
theorem admin_always_allowed_no_ledger_entry (maxImages : Nat)
    (adminIps : List String) (ip now : String) (s : ServerState)
    (hadm : adminIps.contains ip = true)
    (hreach : Reachable maxImages adminIps s) :
    (checkAndConsume maxImages adminIps ip now s).1 =
      ⟨Decision.allow, ⟨"admin_unlimited", none, none, none⟩⟩ ∧
    mapGet s.usageByIp ip = none ∧
    ∀ ip2 now2,
      mapGet (checkAndConsume maxImages adminIps ip2 now2 s).2.usageByIp ip = none := by
  refine ⟨?_, reachable_admin_none maxImages adminIps hreach ip hadm, ?_⟩
  · rw [checkAndConsume_admin maxImages adminIps ip now s hadm]
  · intro ip2 now2
    exact reachable_admin_none maxImages adminIps
      (Reachable.step ip2 now2 hreach) ip hadm

theorem admin_always_allowed_no_ledger_entry_witness :
    (checkAndConsume 20 ["9.9.9.9"] "9.9.9.9" "m" ⟨[], "m"⟩).1 =
      ⟨Decision.allow, ⟨"admin_unlimited", none, none, none⟩⟩ :=
  (admin_always_allowed_no_ledger_entry 20 ["9.9.9.9"] "9.9.9.9" "m" ⟨[], "m"⟩
    (by decide) (Reachable.init "m")).1

/-- Claim C5: for a non-admin identity, when the stored month key differs
from the current one, the call treats the stored count as 0: with a positive
limit, the call returns ALLOW with used = 1 and remaining = limit - 1, on a
ledger holding only this identity at count 1 under the new month key. -/
theorem stale_period_resets_count (maxImages : Nat) (adminIps : List String)
    (ip now : String) (s : ServerState)
    (hadm : adminIps.contains ip = false) (hper : now ≠ s.currentMonthKey)
    (hmax : 0 < maxImages) :
    checkAndConsume maxImages adminIps ip now s =
      (⟨Decision.allow,
        ⟨"per_ip_month", some maxImages, some 1, some (maxImages - 1)⟩⟩,
       ⟨[(ip, 1)], now⟩) := by
  have hwin := ensureUsageWindow_diff now s hper
  have hlt : (mapGet (ensureUsageWindow now s).usageByIp ip).getD 0 < maxImages := by
    rw [hwin]
    exact hmax
  rw [checkAndConsume_allow maxImages adminIps ip now s hadm hlt, hwin]
  simp [mapGet, mapSet]

theorem stale_period_resets_count_witness :
    checkAndConsume 20 [] "A" "2025-10" ⟨[("A", 20)], "2025-9"⟩ =
      (⟨Decision.allow, ⟨"per_ip_month", some 20, some 1, some 19⟩⟩,
       ⟨[("A", 1)], "2025-10"⟩) :=
  stale_period_resets_count 20 [] "A" "2025-10" ⟨[("A", 20)], "2025-9"⟩
    (by decide) (by decide) (by decide)

/-- Claim C6: the admission section of the handler (src/server.js lines
86-138) contains no await, so under the event loop's run-to-completion
semantics it executes atomically and two concurrent requests serialize into
two admission steps in some order; for the same non-admin identity holding
its last free slot (stored count = limit - 1, i.e. remaining = 1), both
serializations are this same sequence, whose first call returns ALLOW and
whose second returns DENY — exactly one ALLOW and one DENY. -/
theorem last_slot_one_allow_one_deny (maxImages : Nat) (adminIps : List String)
    (ip now : String) (s : ServerState)
    (hadm : adminIps.contains ip = false) (hper : now = s.currentMonthKey)
    (hc : mapGet s.usageByIp ip = some (maxImages - 1)) (hmax : 0 < maxImages) :
    (checkAndConsume maxImages adminIps ip now s).1.decision = Decision.allow ∧
    (checkAndConsume maxImages adminIps ip now
        (checkAndConsume maxImages adminIps ip now s).2).1.decision =
      Decision.deny := by
  have hwin := ensureUsageWindow_same now s hper
  have hlt : (mapGet (ensureUsageWindow now s).usageByIp ip).getD 0 < maxImages := by
    rw [hwin, hc]
    exact Nat.sub_lt hmax Nat.one_pos
  have hstep := checkAndConsume_allow maxImages adminIps ip now s hadm hlt
  have hs2 : (checkAndConsume maxImages adminIps ip now s).2 =
      ⟨mapSet s.usageByIp ip maxImages, s.currentMonthKey⟩ := by
    rw [hstep, hwin, hc]
    have hsucc : maxImages - 1 + 1 = maxImages := Nat.succ_pred_eq_of_pos hmax
    simp [hsucc]
  constructor
  · rw [hstep]
  · have hper2 : now =
        ((⟨mapSet s.usageByIp ip maxImages, s.currentMonthKey⟩ :
          ServerState)).currentMonthKey := hper
    have hge2 : maxImages ≤ (mapGet (ensureUsageWindow now
        (⟨mapSet s.usageByIp ip maxImages, s.currentMonthKey⟩ :
          ServerState)).usageByIp ip).getD 0 := by
      rw [ensureUsageWindow_same _ _ hper2]
      show maxImages ≤ (mapGet (mapSet s.usageByIp ip maxImages) ip).getD 0
      rw [mapGet_mapSet_self]
      exact Nat.le_refl maxImages
    rw [hs2, checkAndConsume_deny maxImages adminIps ip now _ hadm hge2]

theorem last_slot_one_allow_one_deny_witness :
    (checkAndConsume 2 [] "A" "m" ⟨[("A", 1)], "m"⟩).1.decision =
      Decision.allow ∧
    (checkAndConsume 2 [] "A" "m"
        (checkAndConsume 2 [] "A" "m" ⟨[("A", 1)], "m"⟩).2).1.decision =
      Decision.deny :=
  last_slot_one_allow_one_deny 2 [] "A" "m" ⟨[("A", 1)], "m"⟩ (by decide) rfl
    (by decide) (by decide)

/-- Claim C7: on the ALLOW branch for a non-admin identity the increment is
committed by the admission section before the upstream call starts, and no
upstream outcome (success, non-ok response, or thrown error) changes the
ledger afterwards: the final state equals the post-admission state, the
identity's count is the incremented one, and every response — the failure
ones included — reports the charged unit. -/
theorem upstream_failure_still_charged (maxImages : Nat)
    (adminIps : List String) (ip now : String) (s : ServerState)
    (hadm : adminIps.contains ip = false)
    (hlt : (mapGet (ensureUsageWindow now s).usageByIp ip).getD 0 < maxImages) :
    ∀ o : UpstreamOutcome,
      (handleGenerate maxImages adminIps ip now o s).2 =
        (checkAndConsume maxImages adminIps ip now s).2 ∧
      mapGet (handleGenerate maxImages adminIps ip now o s).2.usageByIp ip =
        some ((mapGet (ensureUsageWindow now s).usageByIp ip).getD 0 + 1) ∧
      (handleGenerate maxImages adminIps ip now o s).1.usage.used =
        some ((mapGet (ensureUsageWindow now s).usageByIp ip).getD 0 + 1) := by
  intro o
  have hstep := checkAndConsume_allow maxImages adminIps ip now s hadm hlt
  cases o <;> simp [handleGenerate, hstep, mapGet_mapSet_self]

theorem upstream_failure_still_charged_witness :
    (handleGenerate 2 [] "A" "m" UpstreamOutcome.httpError ⟨[], "m"⟩).2 =
      (checkAndConsume 2 [] "A" "m" ⟨[], "m"⟩).2 ∧
    mapGet (handleGenerate 2 [] "A" "m" UpstreamOutcome.httpError
        ⟨[], "m"⟩).2.usageByIp "A" = some 1 ∧
    (handleGenerate 2 [] "A" "m" UpstreamOutcome.httpError
        ⟨[], "m"⟩).1.usage.used = some 1 :=
  upstream_failure_still_charged 2 [] "A" "m" ⟨[], "m"⟩ (by decide) (by decide)
    UpstreamOutcome.httpError

/-- Claim C9: in every reachable state every stored count is at most the
limit, and a count at or above the limit is terminal for its period: any
same-period call, by any identity, leaves that count unchanged (only a
period change can lower it, via the rollover reset). -/
theorem count_never_exceeds_limit (maxImages : Nat) (adminIps : List String)
    (s : ServerState) (hreach : Reachable maxImages adminIps s) :
    (∀ ip c, mapGet s.usageByIp ip = some c → c ≤ maxImages) ∧
    (∀ ip c ip2 now, mapGet s.usageByIp ip = some c → maxImages ≤ c →
      now = s.currentMonthKey →
      mapGet (checkAndConsume maxImages adminIps ip2 now s).2.usageByIp ip =
        some c) := by
  refine ⟨reachable_count_le maxImages adminIps hreach, ?_⟩
  intro ip c ip2 now hc hge hper
  have hwin := ensureUsageWindow_same now s hper
  rcases mapGet_after_call maxImages adminIps ip2 now s ip with heq | ⟨hip, _, hlt, _⟩
  · rw [heq, hwin]
    exact hc
  · subst hip
    rw [hwin, hc] at hlt
    simp at hlt
    omega

theorem count_never_exceeds_limit_witness :
    mapGet (checkAndConsume 1 [] "B" "m" ⟨[("A", 1)], "m"⟩).2.usageByIp "A" =
      some 1 := by
  have h0 : Reachable 1 [] (⟨[], "m"⟩ : ServerState) := Reachable.init "m"
  have h1 : Reachable 1 [] (⟨[("A", 1)], "m"⟩ : ServerState) := by
    have hstep := Reachable.step "A" "m" h0
    have he : (checkAndConsume 1 [] "A" "m" ⟨[], "m"⟩).2 =
        (⟨[("A", 1)], "m"⟩ : ServerState) := by decide
    rw [he] at hstep
    exact hstep
  exact (count_never_exceeds_limit 1 [] ⟨[("A", 1)], "m"⟩ h1).2 "A" 1 "B" "m"
    (by decide) (by decide) rfl

/-- Claim C4 counterexample: with identity B stored at count 5 under month
key 2025-9, a single call by the different identity A in month 2025-10
leaves no ledger entry for B — the rollover cleared the whole map at once —
so the reset is neither per-identity nor deletion-free. -/
theorem rollover_global_clear_counterexample :
    mapGet ((⟨[("B", 5)], "2025-9"⟩ : ServerState)).usageByIp "B" = some 5 ∧
    mapGet (checkAndConsume 20 [] "A" "2025-10"
        ⟨[("B", 5)], "2025-9"⟩).2.usageByIp "B" = none := by
  decide

/-- Claim C4 amended: rollover is lazy in that it runs inside request
handling (no timer, no scheduled sweep), but it is global rather than
per-identity: the first access that observes a changed month key clears the
entire map — deleting every identity's entry at once — and stores the new
key, while an access within an unchanged month leaves the state untouched. -/
theorem rollover_lazy_global_clear (now : String) (s : ServerState) :
    (now ≠ s.currentMonthKey → ensureUsageWindow now s = ⟨[], now⟩) ∧
    (now = s.currentMonthKey → ensureUsageWindow now s = s) :=
  ⟨fun h => ensureUsageWindow_diff now s h, fun h => ensureUsageWindow_same now s h⟩

theorem rollover_lazy_global_clear_witness :
    ensureUsageWindow "2025-10" ⟨[("B", 5)], "2025-9"⟩ = ⟨[], "2025-10"⟩ :=
  (rollover_lazy_global_clear "2025-10" ⟨[("B", 5)], "2025-9"⟩).1 (by decide)

/-- Claim C8 counterexample: an admission call by an admin identity returns
a usage snapshot carrying only the period field — used, remaining and limit
are all absent — so the returned result does not contain all five
AdmissionResult fields of the spec's interface. -/
theorem admin_snapshot_missing_fields :
    (checkAndConsume 20 ["9.9.9.9"] "9.9.9.9" "2025-9"
        ⟨[], "2025-9"⟩).1.usage.used = none ∧
    (checkAndConsume 20 ["9.9.9.9"] "9.9.9.9" "2025-9"
        ⟨[], "2025-9"⟩).1.usage.remaining = none ∧
    (checkAndConsume 20 ["9.9.9.9"] "9.9.9.9" "2025-9"
        ⟨[], "2025-9"⟩).1.usage.limit = none := by
  decide

/-- Claim C8 amended: the allowed/denied outcome is conveyed by the decision
(the HTTP status), not by a snapshot field; a non-admin call's snapshot
carries the four fields period = "per_ip_month", limit, used and remaining,
while an admin call's snapshot carries only period = "admin_unlimited" with
no limit, used or remaining fields. -/
theorem snapshot_fields_by_branch (maxImages : Nat) (adminIps : List String)
    (ip now : String) (s : ServerState) :
    (adminIps.contains ip = true →
      (checkAndConsume maxImages adminIps ip now s).1 =
        ⟨Decision.allow, ⟨"admin_unlimited", none, none, none⟩⟩) ∧
    (adminIps.contains ip = false →
      ∃ u r, (checkAndConsume maxImages adminIps ip now s).1.usage =
        ⟨"per_ip_month", some maxImages, some u, some r⟩) := by
  constructor
  · intro h
    rw [checkAndConsume_admin maxImages adminIps ip now s h]
  · intro h
    by_cases hge : maxImages ≤ (mapGet (ensureUsageWindow now s).usageByIp ip).getD 0
    · refine ⟨(mapGet (ensureUsageWindow now s).usageByIp ip).getD 0, 0, ?_⟩
      rw [checkAndConsume_deny maxImages adminIps ip now s h hge]
    · refine ⟨(mapGet (ensureUsageWindow now s).usageByIp ip).getD 0 + 1,
        max (maxImages -
          ((mapGet (ensureUsageWindow now s).usageByIp ip).getD 0 + 1)) 0, ?_⟩
      rw [checkAndConsume_allow maxImages adminIps ip now s h (Nat.not_le.mp hge)]

theorem snapshot_fields_by_branch_witness :
    (checkAndConsume 20 ["9.9.9.9"] "9.9.9.9" "2025-9" ⟨[], "2025-9"⟩).1 =
      ⟨Decision.allow, ⟨"admin_unlimited", none, none, none⟩⟩ :=
  (snapshot_fields_by_branch 20 ["9.9.9.9"] "9.9.9.9" "2025-9"
    ⟨[], "2025-9"⟩).1 (by decide)

/-- Claim C10: when a request carries no x-forwarded-for header, no req.ip
and no remote address, getClientIp yields the literal "unknown", and every
such request is admitted against the single shared counter stored under the
key "unknown": from a fresh state in the current month, two such requests
are charged used = 1 and then used = 2 on that one key rather than being
rejected before the admission core. -/
theorem missing_identity_unknown_shared_counter (r1 r2 : Req)
    (maxImages : Nat) (adminIps : List String) (m : String)
    (h1 : r1.xForwardedFor = XfHeader.missing) (h2 : r1.ip = none)
    (h3 : r1.remoteAddress = none)
    (h4 : r2.xForwardedFor = XfHeader.missing) (h5 : r2.ip = none)
    (h6 : r2.remoteAddress = none)
    (hadm : adminIps.contains "unknown" = false) (hmax : 2 ≤ maxImages) :
    getClientIp r1 = "unknown" ∧ getClientIp r2 = "unknown" ∧
    (checkAndConsume maxImages adminIps (getClientIp r1) m
        ⟨[], m⟩).1.usage.used = some 1 ∧
    (checkAndConsume maxImages adminIps (getClientIp r2) m
        (checkAndConsume maxImages adminIps (getClientIp r1) m
          ⟨[], m⟩).2).1.usage.used = some 2 := by
  have g1 : getClientIp r1 = "unknown" := by
    simp [getClientIp, h1, h2, h3, jsOrStr]
  have g2 : getClientIp r2 = "unknown" := by
    simp [getClientIp, h4, h5, h6, jsOrStr]
  have hwin1 : ensureUsageWindow m (⟨[], m⟩ : ServerState) = ⟨[], m⟩ :=
    ensureUsageWindow_same _ _ rfl
  have hlt1 : (mapGet (ensureUsageWindow m
      (⟨[], m⟩ : ServerState)).usageByIp "unknown").getD 0 < maxImages := by
    rw [hwin1]
    show (mapGet [] "unknown").getD 0 < maxImages
    simp [mapGet]
    omega
  have hstep1 := checkAndConsume_allow maxImages adminIps "unknown" m
    ⟨[], m⟩ hadm hlt1
  have hs2 : (checkAndConsume maxImages adminIps "unknown" m ⟨[], m⟩).2 =
      ⟨[("unknown", 1)], m⟩ := by
    rw [hstep1, hwin1]
    simp [mapGet, mapSet]
  have hwin2 : ensureUsageWindow m (⟨[("unknown", 1)], m⟩ : ServerState) =
      ⟨[("unknown", 1)], m⟩ :=
    ensureUsageWindow_same _ _ rfl
  have hlt2 : (mapGet (ensureUsageWindow m
      (⟨[("unknown", 1)], m⟩ : ServerState)).usageByIp "unknown").getD 0 <
        maxImages := by
    rw [hwin2]
    show (mapGet [("unknown", 1)] "unknown").getD 0 < maxImages
    simp [mapGet]
    omega
  have hstep2 := checkAndConsume_allow maxImages adminIps "unknown" m
    ⟨[("unknown", 1)], m⟩ hadm hlt2
  refine ⟨g1, g2, ?_, ?_⟩
  · rw [g1, hstep1, hwin1]
    simp [mapGet]
  · rw [g2, g1, hs2, hstep2, hwin2]
    simp [mapGet]

theorem missing_identity_unknown_shared_counter_witness :
    getClientIp ⟨XfHeader.missing, none, none⟩ = "unknown" ∧
    getClientIp ⟨XfHeader.missing, none, none⟩ = "unknown" ∧
    (checkAndConsume 2 [] (getClientIp ⟨XfHeader.missing, none, none⟩) "m"
        ⟨[], "m"⟩).1.usage.used = some 1 ∧
    (checkAndConsume 2 [] (getClientIp ⟨XfHeader.missing, none, none⟩) "m"
        (checkAndConsume 2 [] (getClientIp ⟨XfHeader.missing, none, none⟩) "m"
          ⟨[], "m"⟩).2).1.usage.used = some 2 :=
  missing_identity_unknown_shared_counter ⟨XfHeader.missing, none, none⟩
    ⟨XfHeader.missing, none, none⟩ 2 [] "m" rfl rfl rfl rfl rfl rfl
    (by decide) (by decide)

end JGil
